import Mathlib

/-!
Shallow embedding of `src/main.py` (realtime-dashboard): the feed-fetching
and broadcast loop `fetch_feeds`, the shared `data_store` dict, the `clients`
set, and the websocket connection handler `websocket_endpoint`.

Python values flowing through the feed parsing are modelled by a JSON value
type; machine-level concerns (actual sockets, the asyncio scheduler) are
modelled by explicit parameters: each cycle receives the three feed responses,
a push-success oracle for `ws.send_json`, and a schedule of registry
mutations performed by concurrently running connection-handler tasks at the
await points of the loop.
-/

/-- JSON values as `resp.json()` returns them.  Numbers carry their decimal
rendering (the numeric payloads of the feeds are only ever interpolated into
f-strings, so the rendering is all the program observes of them). -/
inductive Json where
  | null
  | bool (b : Bool)
  | str (s : String)
  | num (lit : String)
  | arr (xs : List Json)
  | obj (fields : List (String × Json))

/-- Python exceptions that the modelled code can raise. -/
inductive PyErr where
  | keyError
  | typeError
  | attrError
  | indexError
  | netError
  | jsonError
deriving DecidableEq

/-- First binding of a key in an association list (Python dict lookup;
the objects of the feeds never repeat a key, so first-match is exact). -/
def assoc (fields : List (String × Json)) (k : String) : Option Json :=
  match fields with
  | [] => none
  | (k', v) :: rest => if k' = k then some v else assoc rest k

/-- Python `str(x)` as used in the f-string `f"M{mag} - {place}"`.
The feeds only ever interpolate scalars; container rendering is
approximated (no repr-quoting of nested strings), which no modelled
code path observes. -/
def pyStr : Json → String
  | .null => "None"
  | .bool true => "True"
  | .bool false => "False"
  | .str s => s
  | .num lit => lit
  | .arr xs => "[" ++ String.intercalate ", " (xs.map pyStrShallow) ++ "]"
  | .obj _ => "\x7b...\x7d"
where
  /-- one level of rendering for list elements -/
  pyStrShallow : Json → String
    | .null => "None"
    | .bool true => "True"
    | .bool false => "False"
    | .str s => s
    | .num lit => lit
    | .arr _ => "[...]"
    | .obj _ => "\x7b...\x7d"

/-- Python `d.get(k, dflt)`: dict lookup with default; calling `.get` on a
non-dict raises AttributeError. -/
def pyGet (j : Json) (k : String) (dflt : Json) : Except PyErr Json :=
  match j with
  | .obj fields => .ok ((assoc fields k).getD dflt)
  | _ => .error .attrError

/-- Python `d[k]` for a string key: KeyError when absent, TypeError when the
subject is not a dict. -/
def pyItem (j : Json) (k : String) : Except PyErr Json :=
  match j with
  | .obj fields =>
    match assoc fields k with
    | some v => .ok v
    | none => .error .keyError
  | _ => .error .typeError

/-- Python `a[i]` for an integer index: IndexError when out of range,
TypeError when the subject is not a sequence. -/
def pyIndex (j : Json) (i : Nat) : Except PyErr Json :=
  match j with
  | .arr xs =>
    match xs.get? i with
    | some v => .ok v
    | none => .error .indexError
  | _ => .error .typeError

/-- Python `for x in xs` over a feed payload: the feeds iterate lists;
iterating a non-sequence raises TypeError. -/
def asArr : Json → Except PyErr (List Json)
  | .arr xs => .ok xs
  | _ => .error .typeError

/-- The shared `data_store` dict: a Python dict from section name to value. -/
abbrev Store := List (String × Json)

/-- `data_store[k] = v`: update in place, preserving dict insertion order;
a fresh key is appended. -/
def dictSet (d : Store) (k : String) (v : Json) : Store :=
  match d with
  | [] => [(k, v)]
  | (k', v') :: rest => if k' = k then (k, v) :: rest else (k', v') :: dictSet rest k v

/-- `data_store[k]` as a read (the broadcast serialises the whole dict, and
the proofs read sections through this). -/
def dictGet (d : Store) (k : String) : Option Json := assoc d k

/-- The module-level initial value of `data_store` (lines 18–22). -/
def dataStoreInit : Store :=
  [("earthquakes", Json.arr []), ("weather", Json.obj []), ("crypto", Json.obj [])]

/-- Outcome of one `await client.get(url)` plus `resp.json()`:
either the request raised (network error / timeout), or a response with a
status code and a body — `none` for a body on which `.json()` raises. -/
inductive FeedResp where
  | netErr
  | resp (status : Nat) (body : Option Json)

/-- What the block of one feed inside the `try` does before touching `data_store`:
raise an exception, skip (non-200 status: the `if` guard fails, no raise),
or produce the value to assign to its section. -/
inductive FeedStep where
  | raised (e : PyErr)
  | skipped
  | value (v : Json)

/-- The earthquake parsing loop (lines 39–43): one string `f"M{mag} - {place}"`
per feature, in feed order; a malformed feature raises and the whole assignment
of the block never happens. -/
def parseQuakes : List Json → Except PyErr (List String)
  | [] => .ok []
  | feature :: rest => do
    let props ← pyItem feature "properties"
    let mag ← pyGet props "mag" .null
    let place ← pyGet props "place" .null
    let tail ← parseQuakes rest
    .ok (("M" ++ pyStr mag ++ " - " ++ pyStr place) :: tail)

/-- Parsing of a 200 earthquake body (lines 37–43): the value that would be
assigned to `data_store["earthquakes"]`, or the exception raised. -/
def eqParse (j : Json) : Except PyErr Json := do
  let features ← pyGet j "features" (Json.arr [])
  let fs ← asArr features
  let quakes ← parseQuakes fs
  .ok (Json.arr (quakes.map Json.str))

/-- The earthquake block (lines 35–44) up to (but not including) the
assignment `data_store["earthquakes"] = quakes`. -/
def eqStep : FeedResp → FeedStep
  | .netErr => .raised .netError
  | .resp status body =>
    if status = 200 then
      match body with
      | none => .raised .jsonError
      | some j =>
        match eqParse j with
        | .error e => .raised e
        | .ok v => .value v
    else .skipped

/-- Parsing of a 200 weather body (lines 49–54): the dict that would be
assigned to `data_store["weather"]` (both dict-literal entries are evaluated
before the assignment, so a raise leaves the section untouched), or the
exception raised. -/
def weatherParse (j : Json) : Except PyErr Json := do
  let cc ← pyItem j "current_condition"
  let current ← pyIndex cc 0
  let tempF ← pyGet current "temp_F" .null
  let wd ← pyItem current "weatherDesc"
  let w0 ← pyIndex wd 0
  let desc ← pyItem w0 "value"
  .ok (Json.obj [("temp_F", tempF), ("description", desc)])

/-- The weather block (lines 47–54) up to the assignment
`data_store["weather"] = {...}`. -/
def weatherStep : FeedResp → FeedStep
  | .netErr => .raised .netError
  | .resp status body =>
    if status = 200 then
      match body with
      | none => .raised .jsonError
      | some j =>
        match weatherParse j with
        | .error e => .raised e
        | .ok v => .value v
    else .skipped

/-- Parsing of a 200 crypto body (lines 59–63): the dict that would be
assigned to `data_store["crypto"]`, or the exception raised. -/
def cryptoParse (j : Json) : Except PyErr Json := do
  let bpi ← pyItem j "bpi"
  let usd ← pyItem bpi "USD"
  let rate ← pyGet usd "rate" .null
  .ok (Json.obj [("BTC_USD", rate)])

/-- The crypto block (lines 57–63) up to the assignment
`data_store["crypto"] = {...}`. -/
def cryptoStep : FeedResp → FeedStep
  | .netErr => .raised .netError
  | .resp status body =>
    if status = 200 then
      match body with
      | none => .raised .jsonError
      | some j =>
        match cryptoParse j with
        | .error e => .raised e
        | .ok v => .value v
    else .skipped

/-- Run one feed block against the store: a raise escapes to the `except`
handler, a skip or an assignment continues to the next block. -/
def applyStep (s : Store) (key : String) : FeedStep → Except PyErr Store
  | .raised e => .error e
  | .skipped => .ok s
  | .value v => .ok (dictSet s key v)

/-- The whole `try`/`except` of one cycle (lines 32–65): the three blocks run
sequentially; an exception in one block keeps the writes of earlier blocks
and skips all later blocks (the single `except` catches it and the cycle
proceeds to broadcast). -/
def fetchPhase (r1 r2 r3 : FeedResp) (s : Store) : Store :=
  match applyStep s "earthquakes" (eqStep r1) with
  | .error _ => s
  | .ok s1 =>
    match applyStep s1 "weather" (weatherStep r2) with
    | .error _ => s1
    | .ok s2 =>
      match applyStep s2 "crypto" (cryptoStep r3) with
      | .error _ => s2
      | .ok s3 => s3

/-- An opaque websocket handle (element of the `clients` set). -/
abbrev Handle := Nat

/-- Python `clients.add(ws)`: a set insert, no effect when already present.
The list order models the (arbitrary) iteration order of the set. -/
def pySetAdd (reg : List Handle) (h : Handle) : List Handle :=
  if h ∈ reg then reg else h :: reg

/-- Python `clients.remove(ws)`: removes the handle, raising KeyError when it
is absent (this is `set.remove`, not `set.discard`). -/
def pyRemove (reg : List Handle) (h : Handle) : Except PyErr (List Handle) :=
  match reg with
  | [] => .error .keyError
  | x :: rest =>
    if x = h then .ok rest
    else
      match pyRemove rest h with
      | .ok rest' => .ok (x :: rest')
      | .error e => .error e

/-- The deregister on disconnect in `websocket_endpoint` (line 103):
`clients.remove(websocket)` inside the WebSocketDisconnect handler. -/
def wsDeregister (reg : List Handle) (ws : Handle) : Except PyErr (List Handle) :=
  pyRemove reg ws

/-- A registry mutation performed by a concurrently scheduled
connection-handler task while the broadcast loop is suspended at an await:
a new client registering, or a disconnected client deregistering.  A
deregister of an already-absent handle raises KeyError inside that handler
task and leaves the registry unchanged, so its registry effect is `erase`. -/
inductive EnvAct where
  | conn (h : Handle)
  | disc (h : Handle)

/-- Registry effect of one concurrent handler action. -/
def applyEnvAct (reg : List Handle) : EnvAct → List Handle
  | .conn h => pySetAdd reg h
  | .disc h => reg.erase h

/-- Registry effect of all handler actions that run during one await. -/
def applyEnv (reg : List Handle) (acts : List EnvAct) : List Handle :=
  acts.foldl applyEnvAct reg

/-- Observable outcome of the broadcast `for` loop (lines 68–72). -/
structure BOut where
  attempted : List Handle
  delivered : List Handle
  reg : List Handle
  crashed : Bool
deriving DecidableEq

/-- The broadcast loop `for ws in list(clients): try: await ws.send_json(...)
except Exception: clients.remove(ws)`.  `snap` is the `list(clients)` copy,
`pushOk ws` tells whether `send_json` succeeds for `ws`, and `sched`
gives the concurrent handler actions interleaved at the await of each push.
A failed push prunes via `set.remove`; if the handle has concurrently been
removed already, that raises KeyError, which nothing catches (the loop body
is outside the fetch `try`), so the whole loop aborts. -/
def broadcastRun (pushOk : Handle → Bool) :
    List Handle → List (List EnvAct) → List Handle → BOut
  | [], _, reg => ⟨[], [], reg, false⟩
  | ws :: rest, sched, reg =>
    let reg1 := applyEnv reg (sched.headD [])
    if pushOk ws then
      let o := broadcastRun pushOk rest sched.tail reg1
      ⟨ws :: o.attempted, ws :: o.delivered, o.reg, o.crashed⟩
    else
      match pyRemove reg1 ws with
      | .ok reg2 =>
        let o := broadcastRun pushOk rest sched.tail reg2
        ⟨ws :: o.attempted, o.delivered, o.reg, o.crashed⟩
      | .error _ => ⟨[ws], [], reg1, true⟩

/-- Observable outcome of one iteration of the `while True` body of
`fetch_feeds`: the store after the fetch phase, the successful pushes (each
carrying the value sent), the push attempts, the registry afterwards, and
whether the broadcast aborted with an uncaught exception. -/
structure CycleOut where
  store : Store
  pushes : List (Handle × Store)
  attempted : List Handle
  reg : List Handle
  crashed : Bool

/-- One full cycle of `fetch_feeds` (lines 31–75): the guarded fetch phase,
then the broadcast over the point-in-time copy `list(clients)`.  Every push
sends the current `data_store`, i.e. the post-fetch store. -/
def cycleRun (r1 r2 r3 : FeedResp) (pushOk : Handle → Bool)
    (sched : List (List EnvAct)) (reg : List Handle) (s : Store) : CycleOut :=
  let s' := fetchPhase r1 r2 r3 s
  let snap := reg
  let o := broadcastRun pushOk snap sched reg
  ⟨s', o.delivered.map (fun h => (h, s')), o.attempted, o.reg, o.crashed⟩

/-- A global event of the running system: one broadcast-loop cycle (with its
feed responses, push oracle and interleaving schedule), or a step of some
connection handler — a connect (accept + `clients.add`), an inbound client
message (`receive_text`, result discarded, line 101), or a disconnect
(deregister; registry effect is `erase`, see `EnvAct`). -/
inductive SysEvent where
  | cycleEv (r1 r2 r3 : FeedResp) (pushOk : Handle → Bool) (sched : List (List EnvAct))
  | connect (h : Handle)
  | message (h : Handle) (payload : String)
  | disconnect (h : Handle)

/-- Global state: the shared `data_store`, the `clients` set, the log of
delivered pushes, and whether the background loop task has died. -/
structure Sys where
  store : Store
  reg : List Handle
  pushLog : List (Handle × Store)
  loopCrashed : Bool

/-- Small-step semantics of the system. A cycle runs only while the loop
task is alive; inbound messages are received and discarded. -/
def sysStep (st : Sys) : SysEvent → Sys
  | .cycleEv r1 r2 r3 pushOk sched =>
    if st.loopCrashed then st
    else
      let o := cycleRun r1 r2 r3 pushOk sched st.reg st.store
      ⟨o.store, o.reg, st.pushLog ++ o.pushes, o.crashed⟩
  | .connect h => { st with reg := pySetAdd st.reg h }
  | .message _ _ => st
  | .disconnect h => { st with reg := st.reg.erase h }

/-- Initial state: the literal `data_store`, an empty `clients` set. -/
def sysInit : Sys := ⟨dataStoreInit, [], [], false⟩

/-- Run the system over a trace of events. -/
def sysRun (tr : List SysEvent) : Sys := tr.foldl sysStep sysInit

/-- Whether an event is an inbound client message. -/
def SysEvent.isMessage : SysEvent → Bool
  | .message _ _ => true
  | _ => false

/-- Events touching the registry lifecycle of handle `h` (its connect/disconnect). -/
def aboutHandle (h : Handle) : SysEvent → Bool
  | .connect g => decide (g = h)
  | .disconnect g => decide (g = h)
  | _ => false

/-- A cycle event that performs no push failures and sees no concurrent
registry mutation; other events are unconstrained. -/
def BenignEv : SysEvent → Prop
  | .cycleEv _ _ _ pushOk sched => (∀ h, pushOk h = true) ∧ sched = []
  | _ => True

/-- Well-formed connection traces: each handle connects at most once and
disconnects at most once, only after its connect (each accepted connection
is a fresh handle). -/
def WFtrace (tr : List SysEvent) : Prop :=
  ∀ h, tr.filter (aboutHandle h) = []
    ∨ tr.filter (aboutHandle h) = [SysEvent.connect h]
    ∨ tr.filter (aboutHandle h) = [SysEvent.connect h, SysEvent.disconnect h]

/-- The shape `data_store` is supposed to keep: exactly the three sections
`earthquakes` (a list of strings), `weather` and `crypto` (dicts), in their
original insertion order. -/
def StoreShape (s : Store) : Prop :=
  s.map Prod.fst = ["earthquakes", "weather", "crypto"]
  ∧ (∃ xs : List String, dictGet s "earthquakes" = some (Json.arr (xs.map Json.str)))
  ∧ (∃ w, dictGet s "weather" = some (Json.obj w))
  ∧ (∃ c, dictGet s "crypto" = some (Json.obj c))

/-- Keep every event except inbound messages from client `h` (the comparison
run in which that client sends nothing). -/
def keepsNonMsg (h : Handle) : SysEvent → Bool
  | .message g _ => !(decide (g = h))
  | _ => true

/-- The seismic feed body from the end-to-end example in the spec: two features
with magnitudes 4.5 and 2.1 at places "10km N of X" and "5km S of Y". -/
def quakeBody0 : Json :=
  Json.obj [("features", Json.arr
    [Json.obj [("properties", Json.obj
        [("mag", Json.num "4.5"), ("place", Json.str "10km N of X")])],
     Json.obj [("properties", Json.obj
        [("mag", Json.num "2.1"), ("place", Json.str "5km S of Y")])]])]

/-- The weather feed body from the end-to-end example in the spec:
temp_F=72, description "Sunny". -/
def weatherBody0 : Json :=
  Json.obj [("current_condition", Json.arr
    [Json.obj [("temp_F", Json.num "72"),
               ("weatherDesc", Json.arr [Json.obj [("value", Json.str "Sunny")]])]])]

/-- The currency feed body from the end-to-end example in the spec:
rate "64,523.10". -/
def cryptoBody0 : Json :=
  Json.obj [("bpi", Json.obj [("USD", Json.obj [("rate", Json.str "64,523.10")])])]

/-- The registry effect of a single event, in isolation (used to reason about
membership: cycles with no push failure and no interleaving leave the
registry untouched, so only connect/disconnect move it). -/
def regStep (reg : List Handle) : SysEvent → List Handle
  | .connect h => pySetAdd reg h
  | .disconnect h => reg.erase h
  | _ => reg

section StoreLemmas

theorem dictGet_dictSet_self (d : Store) (k : String) (v : Json) :
    dictGet (dictSet d k v) k = some v := by
  induction d with
  | nil => simp [dictGet, dictSet, assoc]
  | cons kv rest ih =>
    obtain ⟨k', v'⟩ := kv
    by_cases hk : k' = k
    · subst hk
      simp [dictGet, dictSet, assoc]
    · simp only [dictGet, dictSet, assoc, if_neg hk]
      exact ih

theorem dictGet_dictSet_other (d : Store) (k k' : String) (v : Json) (h : k' ≠ k) :
    dictGet (dictSet d k v) k' = dictGet d k' := by
  have h' : ¬ k = k' := fun hh => h hh.symm
  induction d with
  | nil => simp [dictGet, dictSet, assoc, h']
  | cons kv rest ih =>
    obtain ⟨k0, v0⟩ := kv
    by_cases hk : k0 = k
    · subst hk
      simp [dictGet, dictSet, assoc, h']
    · simp only [dictGet, dictSet, assoc, if_neg hk] at ih ⊢
      by_cases hk' : k0 = k'
      · simp [if_pos hk']
      · simp only [if_neg hk']
        exact ih

theorem dictSet_keys (d : Store) (k : String) (v : Json) (h : k ∈ d.map Prod.fst) :
    (dictSet d k v).map Prod.fst = d.map Prod.fst := by
  induction d with
  | nil => simp at h
  | cons kv rest ih =>
    obtain ⟨k0, v0⟩ := kv
    by_cases hk : k0 = k
    · subst hk
      simp [dictSet]
    · simp only [List.map_cons, List.mem_cons] at h
      rcases h with h | h
    
      · exact absurd h.symm hk
      · simp [dictSet, if_neg hk, ih h]

end StoreLemmas

section RegistryLemmas

theorem pyRemove_of_mem (reg : List Handle) (h : Handle) (hm : h ∈ reg) :
    pyRemove reg h = .ok (reg.erase h) := by
  induction reg with
  | nil => simp at hm
  | cons x rest ih =>
    by_cases hx : x = h
    · subst hx
      simp [pyRemove, List.erase_cons_head]
    · rcases List.mem_cons.mp hm with h1 | h1
      · exact absurd h1.symm hx
      · simp [pyRemove, if_neg hx, ih h1, List.erase_cons, hx]

theorem pyRemove_of_not_mem (reg : List Handle) (h : Handle) (hm : h ∉ reg) :
    pyRemove reg h = .error .keyError := by
  induction reg with
  | nil => rfl
  | cons x rest ih =>
    have hx : x ≠ h := fun hh => hm (hh ▸ List.mem_cons_self x rest)
    have hr : h ∉ rest := fun hh => hm (List.mem_cons_of_mem x hh)
    simp [pyRemove, if_neg hx, ih hr]

theorem mem_foldl_erase (l reg : List Handle) (b : Handle)
    (hb : b ∈ List.foldl List.erase reg l) : b ∈ reg := by
  induction l generalizing reg with
  | nil => simpa using hb
  | cons x rest ih =>
    simp only [List.foldl_cons] at hb
    exact List.mem_of_mem_erase (ih _ hb)

theorem not_mem_foldl_erase (l reg : List Handle) (a : Handle)
    (hnd : reg.Nodup) (ha : a ∈ l) : a ∉ List.foldl List.erase reg l := by
  induction l generalizing reg with
  | nil => simp at ha
  | cons x rest ih =>
    simp only [List.foldl_cons]
    rcases List.mem_cons.mp ha with h1 | h1
    · subst h1
      intro hmem
      exact hnd.not_mem_erase (mem_foldl_erase _ _ _ hmem)
    · exact ih (reg.erase x) (hnd.erase x) h1

end RegistryLemmas

section BroadcastLemmas

theorem broadcastRun_allOk (pushOk : Handle → Bool) (snap : List Handle)
    (sched : List (List EnvAct)) (reg : List Handle)
    (hall : ∀ h ∈ snap, pushOk h = true) :
    (broadcastRun pushOk snap sched reg).attempted = snap
    ∧ (broadcastRun pushOk snap sched reg).delivered = snap
    ∧ (broadcastRun pushOk snap sched reg).crashed = false := by
  induction snap generalizing sched reg with
  | nil => exact ⟨rfl, rfl, rfl⟩
  | cons ws rest ih =>
    have hws : pushOk ws = true := hall ws (List.mem_cons_self _ _)
    have ih' := ih sched.tail (applyEnv reg (sched.head?.getD []))
      (fun h hh => hall h (List.mem_cons_of_mem _ hh))
    simp [broadcastRun, hws, List.headD_eq_head?_getD, ih'.1, ih'.2.1, ih'.2.2]

theorem broadcastRun_allOk_reg (pushOk : Handle → Bool) (snap reg : List Handle)
    (hall : ∀ h ∈ snap, pushOk h = true) :
    (broadcastRun pushOk snap [] reg).reg = reg := by
  induction snap generalizing reg with
  | nil => rfl
  | cons ws rest ih =>
    have hws : pushOk ws = true := hall ws (List.mem_cons_self _ _)
    have ih' := ih reg (fun h hh => hall h (List.mem_cons_of_mem _ hh))
    simpa [broadcastRun, hws, applyEnv] using ih'

theorem broadcastRun_noEnv (pushOk : Handle → Bool) (snap reg : List Handle)
    (hnd : snap.Nodup) (hsub : ∀ h ∈ snap, h ∈ reg) :
    (broadcastRun pushOk snap [] reg).attempted = snap
    ∧ (broadcastRun pushOk snap [] reg).delivered = snap.filter pushOk
    ∧ (broadcastRun pushOk snap [] reg).crashed = false
    ∧ (broadcastRun pushOk snap [] reg).reg
        = List.foldl List.erase reg (snap.filter fun h => !pushOk h) := by
  induction snap generalizing reg with
  | nil => exact ⟨rfl, rfl, rfl, rfl⟩
  | cons ws rest ih =>
    have hnd' := List.nodup_cons.mp hnd
    cases hws : pushOk ws with
    | true =>
      have ih' := ih reg hnd'.2 (fun h hh => hsub h (List.mem_cons_of_mem _ hh))
      simp [broadcastRun, hws, applyEnv, List.filter_cons, ih'.1, ih'.2.1, ih'.2.2.1,
        ih'.2.2.2]
    | false =>
      have hmem : ws ∈ reg := hsub ws (List.mem_cons_self _ _)
      have hrem := pyRemove_of_mem reg ws hmem
      have hsub' : ∀ h ∈ rest, h ∈ reg.erase ws := by
        intro h hh
        have hne : h ≠ ws := by
          intro he
          subst he
          exact hnd'.1 hh
        exact (List.mem_erase_of_ne hne).mpr (hsub h (List.mem_cons_of_mem _ hh))
      have ih' := ih (reg.erase ws) hnd'.2 hsub'
      simp [broadcastRun, hws, applyEnv, hrem, List.filter_cons, ih'.1, ih'.2.1,
        ih'.2.2.1, ih'.2.2.2]

end BroadcastLemmas

section SystemLemmas

theorem mem_pySetAdd_self (reg : List Handle) (h : Handle) : h ∈ pySetAdd reg h := by
  unfold pySetAdd
  by_cases hm : h ∈ reg
  · simpa [if_pos hm] using hm
  · simp [if_neg hm]

theorem mem_pySetAdd_other (reg : List Handle) (g h : Handle) (hne : g ≠ h) :
    h ∈ pySetAdd reg g ↔ h ∈ reg := by
  unfold pySetAdd
  by_cases hm : g ∈ reg
  · rw [if_pos hm]
  · rw [if_neg hm, List.mem_cons]
    exact or_iff_right (fun he => hne he.symm)

theorem nodup_pySetAdd (reg : List Handle) (h : Handle) (hnd : reg.Nodup) :
    (pySetAdd reg h).Nodup := by
  unfold pySetAdd
  by_cases hm : h ∈ reg
  · rwa [if_pos hm]
  · rw [if_neg hm]
    exact List.nodup_cons.mpr ⟨hm, hnd⟩

theorem regStep_nodup (reg : List Handle) (e : SysEvent) (hnd : reg.Nodup) :
    (regStep reg e).Nodup := by
  cases e with
  | cycleEv r1 r2 r3 pushOk sched => exact hnd
  | connect g => exact nodup_pySetAdd reg g hnd
  | message g p => exact hnd
  | disconnect g => exact hnd.erase g

theorem mem_regStep_other (reg : List Handle) (e : SysEvent) (h : Handle)
    (ha : aboutHandle h e = false) : h ∈ regStep reg e ↔ h ∈ reg := by
  cases e with
  | cycleEv r1 r2 r3 pushOk sched => exact Iff.rfl
  | connect g =>
    have hg : g ≠ h := by simpa [aboutHandle] using ha
    exact mem_pySetAdd_other reg g h hg
  | message g p => exact Iff.rfl
  | disconnect g =>
    have hg : g ≠ h := by simpa [aboutHandle] using ha
    exact List.mem_erase_of_ne (Ne.symm hg)

theorem foldl_regStep_no_events (h : Handle) (tr : List SysEvent) (reg : List Handle)
    (hf : tr.filter (aboutHandle h) = []) :
    h ∈ List.foldl regStep reg tr ↔ h ∈ reg := by
  induction tr generalizing reg with
  | nil => exact Iff.rfl
  | cons e rest ih =>
    rw [List.filter_cons] at hf
    by_cases ha : aboutHandle h e = true
    · rw [if_pos ha] at hf
      exact absurd hf (List.cons_ne_nil _ _)
    · have ha' : aboutHandle h e = false := by simpa using ha
      rw [if_neg ha] at hf
      simp only [List.foldl_cons]
      rw [ih (regStep reg e) hf]
      exact mem_regStep_other reg e h ha'

theorem foldl_regStep_conn_only (h : Handle) (tr : List SysEvent) (reg : List Handle)
    (hf : tr.filter (aboutHandle h) = [SysEvent.connect h]) :
    h ∈ List.foldl regStep reg tr := by
  induction tr generalizing reg with
  | nil => simp at hf
  | cons e rest ih =>
    rw [List.filter_cons] at hf
    by_cases ha : aboutHandle h e = true
    · rw [if_pos ha] at hf
      have he : e = SysEvent.connect h := (List.cons_eq_cons.mp hf).1
      have hrest : rest.filter (aboutHandle h) = [] := (List.cons_eq_cons.mp hf).2
      subst he
      simp only [List.foldl_cons]
      rw [foldl_regStep_no_events h rest _ hrest]
      exact mem_pySetAdd_self reg h
    · rw [if_neg ha] at hf
      simp only [List.foldl_cons]
      exact ih (regStep reg e) hf

theorem foldl_regStep_disc_only (h : Handle) (tr : List SysEvent) (reg : List Handle)
    (hnd : reg.Nodup) (hf : tr.filter (aboutHandle h) = [SysEvent.disconnect h]) :
    h ∉ List.foldl regStep reg tr := by
  induction tr generalizing reg with
  | nil => simp at hf
  | cons e rest ih =>
    rw [List.filter_cons] at hf
    by_cases ha : aboutHandle h e = true
    · rw [if_pos ha] at hf
      have he : e = SysEvent.disconnect h := (List.cons_eq_cons.mp hf).1
      have hrest : rest.filter (aboutHandle h) = [] := (List.cons_eq_cons.mp hf).2
      subst he
      simp only [List.foldl_cons]
      rw [foldl_regStep_no_events h rest _ hrest]
      exact hnd.not_mem_erase
    · rw [if_neg ha] at hf
      simp only [List.foldl_cons]
      exact ih (regStep reg e) (regStep_nodup reg e hnd) hf

theorem foldl_regStep_conn_disc (h : Handle) (tr : List SysEvent) (reg : List Handle)
    (hnd : reg.Nodup)
    (hf : tr.filter (aboutHandle h) = [SysEvent.connect h, SysEvent.disconnect h]) :
    h ∉ List.foldl regStep reg tr := by
  induction tr generalizing reg with
  | nil => simp at hf
  | cons e rest ih =>
    rw [List.filter_cons] at hf
    by_cases ha : aboutHandle h e = true
    · rw [if_pos ha] at hf
      have he : e = SysEvent.connect h := (List.cons_eq_cons.mp hf).1
      have hrest : rest.filter (aboutHandle h) = [SysEvent.disconnect h] :=
        (List.cons_eq_cons.mp hf).2
      subst he
      simp only [List.foldl_cons]
      exact foldl_regStep_disc_only h rest _ (regStep_nodup reg _ hnd) hrest
    · rw [if_neg ha] at hf
      simp only [List.foldl_cons]
      exact ih (regStep reg e) (regStep_nodup reg e hnd) hf

theorem foldl_regStep_nodup (tr : List SysEvent) (reg : List Handle) (hnd : reg.Nodup) :
    (List.foldl regStep reg tr).Nodup := by
  induction tr generalizing reg with
  | nil => exact hnd
  | cons e rest ih => exact ih (regStep reg e) (regStep_nodup reg e hnd)

theorem sysRun_reg_eq_foldl (tr : List SysEvent) (st : Sys) (hb : ∀ e ∈ tr, BenignEv e) :
    (List.foldl sysStep st tr).reg = List.foldl regStep st.reg tr := by
  induction tr generalizing st with
  | nil => rfl
  | cons e rest ih =>
    have hbe := hb e (List.mem_cons_self _ _)
    have hbr : ∀ e' ∈ rest, BenignEv e' := fun e' he' => hb e' (List.mem_cons_of_mem _ he')
    have hstep : (sysStep st e).reg = regStep st.reg e := by
      cases e with
      | cycleEv r1 r2 r3 pushOk sched =>
        obtain ⟨hok, hsched⟩ := hbe
        subst hsched
        by_cases hc : st.loopCrashed
        · simp [sysStep, hc, regStep]
        · simp only [sysStep, if_neg hc, regStep]
          simpa [cycleRun] using broadcastRun_allOk_reg pushOk st.reg st.reg (fun g _ => hok g)
      | connect g => rfl
      | message g p => rfl
      | disconnect g => rfl
    simp only [List.foldl_cons]
    rw [ih (sysStep st e) hbr, hstep]

theorem foldl_sysStep_drop_msgs (h : Handle) (tr : List SysEvent) (st : Sys) :
    List.foldl sysStep st tr = List.foldl sysStep st (tr.filter (keepsNonMsg h)) := by
  induction tr generalizing st with
  | nil => rfl
  | cons e rest ih =>
    rw [List.filter_cons]
    by_cases hk : keepsNonMsg h e = true
    · rw [if_pos hk]
      simp only [List.foldl_cons]
      exact ih (sysStep st e)
    · rw [if_neg hk]
      have hid : sysStep st e = st := by
        cases e with
        | cycleEv r1 r2 r3 pushOk sched => simp [keepsNonMsg] at hk
        | connect g => simp [keepsNonMsg] at hk
        | message g p => rfl
        | disconnect g => simp [keepsNonMsg] at hk
      simp only [List.foldl_cons, hid]
      exact ih st

end SystemLemmas


section ShapeLemmas

theorem except_bind_ok {α β : Type} (x : Except PyErr α) (f : α → Except PyErr β) (b : β)
    (h : (x >>= f) = .ok b) : ∃ a, x = .ok a ∧ f a = .ok b := by
  cases x with
  | error e =>
    simp only [Bind.bind, Except.bind] at h
    exact Except.noConfusion h
  | ok a =>
    refine ⟨a, rfl, ?_⟩
    simpa only [Bind.bind, Except.bind] using h

theorem eqParse_ok_shape (j w : Json) (hp : eqParse j = .ok w) :
    ∃ xs : List String, w = Json.arr (xs.map Json.str) := by
  unfold eqParse at hp
  obtain ⟨features, h1, hp⟩ := except_bind_ok _ _ _ hp
  obtain ⟨fs, h2, hp⟩ := except_bind_ok _ _ _ hp
  obtain ⟨qs, h3, hp⟩ := except_bind_ok _ _ _ hp
  exact ⟨qs, (Except.ok.injEq _ _ ▸ hp : _ = w).symm⟩

theorem weatherParse_ok_shape (j w : Json) (hp : weatherParse j = .ok w) :
    ∃ fields, w = Json.obj fields := by
  unfold weatherParse at hp
  obtain ⟨cc, h1, hp⟩ := except_bind_ok _ _ _ hp
  obtain ⟨current, h2, hp⟩ := except_bind_ok _ _ _ hp
  obtain ⟨tempF, h3, hp⟩ := except_bind_ok _ _ _ hp
  obtain ⟨wd, h4, hp⟩ := except_bind_ok _ _ _ hp
  obtain ⟨w0, h5, hp⟩ := except_bind_ok _ _ _ hp
  obtain ⟨desc, h6, hp⟩ := except_bind_ok _ _ _ hp
  exact ⟨_, (Except.ok.injEq _ _ ▸ hp : _ = w).symm⟩

theorem cryptoParse_ok_shape (j w : Json) (hp : cryptoParse j = .ok w) :
    ∃ fields, w = Json.obj fields := by
  unfold cryptoParse at hp
  obtain ⟨bpi, h1, hp⟩ := except_bind_ok _ _ _ hp
  obtain ⟨usd, h2, hp⟩ := except_bind_ok _ _ _ hp
  obtain ⟨rate, h3, hp⟩ := except_bind_ok _ _ _ hp
  exact ⟨_, (Except.ok.injEq _ _ ▸ hp : _ = w).symm⟩

theorem eqStep_value_shape (r : FeedResp) (v : Json) (hv : eqStep r = .value v) :
    ∃ xs : List String, v = Json.arr (xs.map Json.str) := by
  cases r with
  | netErr => simp [eqStep] at hv
  | resp status body =>
    simp only [eqStep] at hv
    by_cases hst : status = 200
    · rw [if_pos hst] at hv
      cases body with
      | none => simp at hv
      | some j =>
        cases hp : eqParse j with
        | error e => simp [hp] at hv
        | ok w =>
          simp only [hp, FeedStep.value.injEq] at hv
          exact hv ▸ eqParse_ok_shape j w hp
    · rw [if_neg hst] at hv
      simp at hv

theorem weatherStep_value_shape (r : FeedResp) (v : Json) (hv : weatherStep r = .value v) :
    ∃ fields, v = Json.obj fields := by
  cases r with
  | netErr => simp [weatherStep] at hv
  | resp status body =>
    simp only [weatherStep] at hv
    by_cases hst : status = 200
    · rw [if_pos hst] at hv
      cases body with
      | none => simp at hv
      | some j =>
        cases hp : weatherParse j with
        | error e => simp [hp] at hv
        | ok w =>
          simp only [hp, FeedStep.value.injEq] at hv
          exact hv ▸ weatherParse_ok_shape j w hp
    · rw [if_neg hst] at hv
      simp at hv

theorem cryptoStep_value_shape (r : FeedResp) (v : Json) (hv : cryptoStep r = .value v) :
    ∃ fields, v = Json.obj fields := by
  cases r with
  | netErr => simp [cryptoStep] at hv
  | resp status body =>
    simp only [cryptoStep] at hv
    by_cases hst : status = 200
    · rw [if_pos hst] at hv
      cases body with
      | none => simp at hv
      | some j =>
        cases hp : cryptoParse j with
        | error e => simp [hp] at hv
        | ok w =>
          simp only [hp, FeedStep.value.injEq] at hv
          exact hv ▸ cryptoParse_ok_shape j w hp
    · rw [if_neg hst] at hv
      simp at hv

theorem StoreShape_set_eq (s : Store) (hs : StoreShape s) (xs : List String) :
    StoreShape (dictSet s "earthquakes" (Json.arr (xs.map Json.str))) := by
  obtain ⟨hk, _, ⟨w0, hw⟩, ⟨c0, hc⟩⟩ := hs
  have hmem : "earthquakes" ∈ s.map Prod.fst := by rw [hk]; simp
  refine ⟨?_, ⟨xs, dictGet_dictSet_self _ _ _⟩, ⟨w0, ?_⟩, ⟨c0, ?_⟩⟩
  · rw [dictSet_keys s _ _ hmem]; exact hk
  · rw [dictGet_dictSet_other _ _ _ _ (by decide)]; exact hw
  · rw [dictGet_dictSet_other _ _ _ _ (by decide)]; exact hc

theorem StoreShape_set_weather (s : Store) (hs : StoreShape s) (fields : List (String × Json)) :
    StoreShape (dictSet s "weather" (Json.obj fields)) := by
  obtain ⟨hk, ⟨xs0, he⟩, _, ⟨c0, hc⟩⟩ := hs
  have hmem : "weather" ∈ s.map Prod.fst := by rw [hk]; simp
  refine ⟨?_, ⟨xs0, ?_⟩, ⟨fields, dictGet_dictSet_self _ _ _⟩, ⟨c0, ?_⟩⟩
  · rw [dictSet_keys s _ _ hmem]; exact hk
  · rw [dictGet_dictSet_other _ _ _ _ (by decide)]; exact he
  · rw [dictGet_dictSet_other _ _ _ _ (by decide)]; exact hc

theorem StoreShape_set_crypto (s : Store) (hs : StoreShape s) (fields : List (String × Json)) :
    StoreShape (dictSet s "crypto" (Json.obj fields)) := by
  obtain ⟨hk, ⟨xs0, he⟩, ⟨w0, hw⟩, _⟩ := hs
  have hmem : "crypto" ∈ s.map Prod.fst := by rw [hk]; simp
  refine ⟨?_, ⟨xs0, ?_⟩, ⟨w0, ?_⟩, ⟨fields, dictGet_dictSet_self _ _ _⟩⟩
  · rw [dictSet_keys s _ _ hmem]; exact hk
  · rw [dictGet_dictSet_other _ _ _ _ (by decide)]; exact he
  · rw [dictGet_dictSet_other _ _ _ _ (by decide)]; exact hw

theorem StoreShape_fetchPhase (r1 r2 r3 : FeedResp) (s : Store) (hs : StoreShape s) :
    StoreShape (fetchPhase r1 r2 r3 s) := by
  have h3 : ∀ s2 : Store, StoreShape s2 →
      StoreShape (match applyStep s2 "crypto" (cryptoStep r3) with
        | .error _ => s2
        | .ok s3 => s3) := by
    intro s2 hs2
    cases hv : cryptoStep r3 with
    | raised e => simpa [applyStep] using hs2
    | skipped => simpa [applyStep] using hs2
    | value v =>
      obtain ⟨fields, rfl⟩ := cryptoStep_value_shape r3 v hv
      simpa [applyStep] using StoreShape_set_crypto s2 hs2 fields
  have h2 : ∀ s1 : Store, StoreShape s1 →
      StoreShape (match applyStep s1 "weather" (weatherStep r2) with
        | .error _ => s1
        | .ok s2 =>
          match applyStep s2 "crypto" (cryptoStep r3) with
          | .error _ => s2
          | .ok s3 => s3) := by
    intro s1 hs1
    cases hv : weatherStep r2 with
    | raised e => simpa [applyStep] using hs1
    | skipped => simpa [applyStep] using h3 s1 hs1
    | value v =>
      obtain ⟨fields, rfl⟩ := weatherStep_value_shape r2 v hv
      simpa [applyStep] using h3 _ (StoreShape_set_weather s1 hs1 fields)
  unfold fetchPhase
  cases hv : eqStep r1 with
  | raised e => simpa [applyStep] using hs
  | skipped => simpa [applyStep] using h2 s hs
  | value v =>
    obtain ⟨xs, rfl⟩ := eqStep_value_shape r1 v hv
    simpa [applyStep] using h2 _ (StoreShape_set_eq s hs xs)

theorem StoreShape_init : StoreShape dataStoreInit := by
  refine ⟨rfl, ⟨[], ?_⟩, ⟨[], ?_⟩, ⟨[], ?_⟩⟩ <;> rfl

end ShapeLemmas

/-- C1 (amended).  Feed-failure isolation as the code actually provides it:
in every cycle, the earthquakes section is updated exactly when its own block
produces a value; the weather section is updated exactly when the earthquake
block did not raise and the weather block produces a value; the crypto
section is updated exactly when neither earlier block raised and the crypto
block produces a value.  In particular a non-success status in one feed
leaves only the section of that feed stale, but a raising failure (network error
or malformed payload) in an earlier feed also skips the fetch of every
later feed for that cycle. -/
theorem fetch_single_failure_isolation (r1 r2 r3 : FeedResp) (s : Store) :
    dictGet (fetchPhase r1 r2 r3 s) "earthquakes"
      = (match eqStep r1 with
         | .value v => some v
         | _ => dictGet s "earthquakes")
  ∧ dictGet (fetchPhase r1 r2 r3 s) "weather"
      = (match eqStep r1 with
         | .raised _ => dictGet s "weather"
         | _ =>
           match weatherStep r2 with
           | .value v => some v
           | _ => dictGet s "weather")
  ∧ dictGet (fetchPhase r1 r2 r3 s) "crypto"
      = (match eqStep r1, weatherStep r2 with
         | .raised _, _ => dictGet s "crypto"
         | _, .raised _ => dictGet s "crypto"
         | _, _ =>
           match cryptoStep r3 with
           | .value v => some v
           | _ => dictGet s "crypto") := by
  have gew : ∀ (d : Store) (v : Json),
      dictGet (dictSet d "earthquakes" v) "weather" = dictGet d "weather" :=
    fun d v => dictGet_dictSet_other d "earthquakes" "weather" v (by decide)
  have gec : ∀ (d : Store) (v : Json),
      dictGet (dictSet d "earthquakes" v) "crypto" = dictGet d "crypto" :=
    fun d v => dictGet_dictSet_other d "earthquakes" "crypto" v (by decide)
  have gwe : ∀ (d : Store) (v : Json),
      dictGet (dictSet d "weather" v) "earthquakes" = dictGet d "earthquakes" :=
    fun d v => dictGet_dictSet_other d "weather" "earthquakes" v (by decide)
  have gwc : ∀ (d : Store) (v : Json),
      dictGet (dictSet d "weather" v) "crypto" = dictGet d "crypto" :=
    fun d v => dictGet_dictSet_other d "weather" "crypto" v (by decide)
  have gce : ∀ (d : Store) (v : Json),
      dictGet (dictSet d "crypto" v) "earthquakes" = dictGet d "earthquakes" :=
    fun d v => dictGet_dictSet_other d "crypto" "earthquakes" v (by decide)
  have gcw : ∀ (d : Store) (v : Json),
      dictGet (dictSet d "crypto" v) "weather" = dictGet d "weather" :=
    fun d v => dictGet_dictSet_other d "crypto" "weather" v (by decide)
  cases he1 : eqStep r1 with
  | raised e1 => simp [fetchPhase, applyStep, he1]
  | skipped =>
    cases he2 : weatherStep r2 with
    | raised e2 => simp [fetchPhase, applyStep, he1, he2]
    | skipped =>
      cases he3 : cryptoStep r3 with
      | raised e3 => simp [fetchPhase, applyStep, he1, he2, he3]
      | skipped => simp [fetchPhase, applyStep, he1, he2, he3]
      | value v3 =>
        simp [fetchPhase, applyStep, he1, he2, he3, dictGet_dictSet_self, gce, gcw]
    | value v2 =>
      cases he3 : cryptoStep r3 with
      | raised e3 =>
        simp [fetchPhase, applyStep, he1, he2, he3, dictGet_dictSet_self, gwe, gwc]
      | skipped =>
        simp [fetchPhase, applyStep, he1, he2, he3, dictGet_dictSet_self, gwe, gwc]
      | value v3 =>
        simp [fetchPhase, applyStep, he1, he2, he3, dictGet_dictSet_self, gwe, gwc,
          gce, gcw]
  | value v1 =>
    cases he2 : weatherStep r2 with
    | raised e2 =>
      simp [fetchPhase, applyStep, he1, he2, dictGet_dictSet_self, gew, gec]
    | skipped =>
      cases he3 : cryptoStep r3 with
      | raised e3 =>
        simp [fetchPhase, applyStep, he1, he2, he3, dictGet_dictSet_self, gew, gec]
      | skipped =>
        simp [fetchPhase, applyStep, he1, he2, he3, dictGet_dictSet_self, gew, gec]
      | value v3 =>
        simp [fetchPhase, applyStep, he1, he2, he3, dictGet_dictSet_self, gew, gec,
          gce, gcw]
    | value v2 =>
      cases he3 : cryptoStep r3 with
      | raised e3 =>
        simp [fetchPhase, applyStep, he1, he2, he3, dictGet_dictSet_self, gew, gec,
          gwe, gwc]
      | skipped =>
        simp [fetchPhase, applyStep, he1, he2, he3, dictGet_dictSet_self, gew, gec,
          gwe, gwc]
      | value v3 =>
        simp [fetchPhase, applyStep, he1, he2, he3, dictGet_dictSet_self, gew, gec,
          gwe, gwc, gce, gcw]

/-- C1 counterexample: with the seismic fetch alone failing (network error)
and the weather and crypto responses both well-formed 200s, the cycle leaves
the whole store untouched — the sections of the two succeeding sources do NOT
receive their newly fetched values, contradicting the claim that a failure
in one source never prevents the other two sections from being updated. -/
theorem fetch_single_failure_isolation_counterexample :
    weatherStep (FeedResp.resp 200 (some weatherBody0))
      = FeedStep.value (Json.obj [("temp_F", Json.num "72"),
          ("description", Json.str "Sunny")])
  ∧ cryptoStep (FeedResp.resp 200 (some cryptoBody0))
      = FeedStep.value (Json.obj [("BTC_USD", Json.str "64,523.10")])
  ∧ fetchPhase FeedResp.netErr (FeedResp.resp 200 (some weatherBody0))
      (FeedResp.resp 200 (some cryptoBody0)) dataStoreInit = dataStoreInit
  ∧ dictGet dataStoreInit "weather" = some (Json.obj [])
  ∧ Json.obj [] ≠ Json.obj [("temp_F", Json.num "72"),
      ("description", Json.str "Sunny")] := by
  refine ⟨rfl, rfl, rfl, rfl, ?_⟩
  simp

/-- C2 (amended).  The registry is a plain Python `set` and both removal
paths — the prune in the broadcast loop after a failed push and the
deregister in the connection handler on disconnect — call `set.remove`: removing a handle
that is currently a member removes exactly that handle, but removing an
absent handle is NOT a no-op — it raises KeyError (the registry value
itself is unchanged, but the caller gets the exception). -/
theorem remove_absent_handle_raises (reg : List Handle) (h : Handle) :
    (h ∉ reg → wsDeregister reg h = .error .keyError)
  ∧ (h ∈ reg → wsDeregister reg h = .ok (reg.erase h)) :=
  ⟨pyRemove_of_not_mem reg h, pyRemove_of_mem reg h⟩

/-- Witness for the amended theorem of C2 at a concrete registry. -/
theorem remove_absent_handle_raises_witness :
    wsDeregister [1] 0 = .error .keyError ∧ wsDeregister [1] 1 = .ok [] :=
  ⟨(remove_absent_handle_raises [1] 0).1 (by decide),
   ((remove_absent_handle_raises [1] 1).2 (by decide)).trans (by rfl)⟩

/-- C2 counterexample: removing a handle absent from the registry raises
KeyError instead of being a silent no-op, on the deregister path of the handler
(`wsDeregister`) and hence on the prune path of the loop, where the uncaught
KeyError aborts the broadcast iteration. -/
theorem remove_absent_handle_raises_counterexample :
    wsDeregister [] 0 = .error PyErr.keyError
  ∧ (broadcastRun (fun _ => false) [3] [[EnvAct.disc 3]] [3]).crashed = true :=
  ⟨rfl, rfl⟩

/-- C3 (amended).  Loop crash-freedom, short of one race: the fetch phase
never lets a feed failure escape (the store of the cycle is always the total
`fetchPhase` result), and for any combination of feed failures and push
failures the broadcast phase completes without an uncaught exception and
the body reaches its sleep — PROVIDED no failing client is concurrently
deregistered during the broadcast.  (When that race occurs the prune via
`set.remove` raises KeyError out of the loop; see the counterexample.) -/
theorem loop_no_crash_without_deregister_race
    (r1 r2 r3 : FeedResp) (pushOk : Handle → Bool) (reg : List Handle) (s : Store)
    (hnd : reg.Nodup) :
    (cycleRun r1 r2 r3 pushOk [] reg s).crashed = false
  ∧ (cycleRun r1 r2 r3 pushOk [] reg s).store = fetchPhase r1 r2 r3 s := by
  have h := broadcastRun_noEnv pushOk reg reg hnd (fun g hg => hg)
  exact ⟨h.2.2.1, rfl⟩

/-- Witness for the amended theorem of C3: a cycle in which every feed fails and
the push to the only client fails still completes without crashing. -/
theorem loop_no_crash_without_deregister_race_witness :
    (cycleRun FeedResp.netErr FeedResp.netErr FeedResp.netErr (fun _ => false)
      [] [7] dataStoreInit).crashed = false
  ∧ (cycleRun FeedResp.netErr FeedResp.netErr FeedResp.netErr (fun _ => false)
      [] [7] dataStoreInit).store
      = fetchPhase FeedResp.netErr FeedResp.netErr FeedResp.netErr dataStoreInit :=
  loop_no_crash_without_deregister_race _ _ _ _ _ _ (by decide)

/-- C3 counterexample: if the push to client 7 fails after the handler of client 7
itself deregistered it during the same broadcast, the prune raises an
uncaught KeyError — the broadcast phase aborts and the loop body never
reaches its sleep, contradicting the claim that no exception escapes for
any such interleaving. -/
theorem loop_crash_on_deregister_race :
    (cycleRun FeedResp.netErr FeedResp.netErr FeedResp.netErr (fun _ => false)
      [[EnvAct.disc 7]] [7] dataStoreInit).crashed = true := rfl

/-- C4 (amended).  Push-failure isolation, short of the same race: in a
broadcast over the membership snapshot with no concurrent registry mutation,
every client whose push succeeds receives the snapshot even when pushes to
other clients fail; each failing client is pruned from the registry; every
member of the snapshot is attempted and the iteration never aborts.  (If a
failing client was concurrently deregistered before its prune, the resulting
KeyError aborts the remaining iterations instead; see the counterexample.) -/
theorem push_failure_isolation (pushOk : Handle → Bool) (reg : List Handle) (a : Handle)
    (hnd : reg.Nodup) (ha : a ∈ reg) (hfail : pushOk a = false) :
    (∀ h ∈ reg, pushOk h = true → h ∈ (broadcastRun pushOk reg [] reg).delivered)
  ∧ a ∉ (broadcastRun pushOk reg [] reg).reg
  ∧ (broadcastRun pushOk reg [] reg).crashed = false
  ∧ (broadcastRun pushOk reg [] reg).attempted = reg := by
  obtain ⟨hatt, hdel, hcr, hreg⟩ := broadcastRun_noEnv pushOk reg reg hnd (fun g hg => hg)
  refine ⟨?_, ?_, hcr, hatt⟩
  · intro h hh hok
    rw [hdel]
    exact List.mem_filter.mpr ⟨hh, hok⟩
  · rw [hreg]
    exact not_mem_foldl_erase _ _ _ hnd (List.mem_filter.mpr ⟨ha, by simp [hfail]⟩)

/-- Witness for the amended theorem of C4: three clients, the push to client 2
fails; clients 1 and 3 are still delivered and 2 is pruned. -/
theorem push_failure_isolation_witness :
    (∀ h ∈ ([1, 2, 3] : List Handle), (fun g : Handle => !(g == 2)) h = true →
        h ∈ (broadcastRun (fun g : Handle => !(g == 2)) [1, 2, 3] [] [1, 2, 3]).delivered)
  ∧ 2 ∉ (broadcastRun (fun g : Handle => !(g == 2)) [1, 2, 3] [] [1, 2, 3]).reg
  ∧ (broadcastRun (fun g : Handle => !(g == 2)) [1, 2, 3] [] [1, 2, 3]).crashed = false
  ∧ (broadcastRun (fun g : Handle => !(g == 2)) [1, 2, 3] [] [1, 2, 3]).attempted
      = [1, 2, 3] :=
  push_failure_isolation (fun g : Handle => !(g == 2)) [1, 2, 3] 2
    (by decide) (by decide) (by decide)

/-- C4 counterexample: clients 7 and 8 are in the membership snapshot
of the cycle, the push to 7 fails while the handler of 7 concurrently deregisters
it, and client 8 — whose push would succeed — is never pushed that cycle:
the KeyError of the prune aborts the remaining iterations. -/
theorem push_failure_isolation_counterexample :
    8 ∈ ([7, 8] : List Handle)
  ∧ (fun g : Handle => !(g == 7)) 8 = true
  ∧ 8 ∉ (broadcastRun (fun g : Handle => !(g == 7)) [7, 8] [[EnvAct.disc 7]] [7, 8]).delivered
  ∧ (broadcastRun (fun g : Handle => !(g == 7)) [7, 8] [[EnvAct.disc 7]] [7, 8]).crashed
      = true := by
  refine ⟨by decide, by decide, ?_, rfl⟩
  intro hmem
  simp [broadcastRun, applyEnv, applyEnvAct, pyRemove] at hmem

/-- C5.  A fetch failure (of any or all feeds) never causes the broadcast
phase to be skipped: which clients are attempted, which are delivered and
whether the loop survives are all independent of the feed outcomes; every
value actually pushed is the current post-fetch store (stale or partial as
it may be); and with no concurrent mutation every member of the membership
snapshot of the cycle is attempted. -/
theorem fetch_failure_never_skips_broadcast
    (r1 r2 r3 r1' r2' r3' : FeedResp) (pushOk : Handle → Bool)
    (sched : List (List EnvAct)) (reg : List Handle) (s : Store)
    (hnd : reg.Nodup) :
    (cycleRun r1 r2 r3 pushOk sched reg s).attempted
      = (cycleRun r1' r2' r3' pushOk sched reg s).attempted
  ∧ (cycleRun r1 r2 r3 pushOk sched reg s).pushes.map Prod.fst
      = (cycleRun r1' r2' r3' pushOk sched reg s).pushes.map Prod.fst
  ∧ (cycleRun r1 r2 r3 pushOk sched reg s).crashed
      = (cycleRun r1' r2' r3' pushOk sched reg s).crashed
  ∧ (∀ p ∈ (cycleRun r1 r2 r3 pushOk sched reg s).pushes, p.2 = fetchPhase r1 r2 r3 s)
  ∧ (cycleRun r1 r2 r3 pushOk [] reg s).attempted = reg := by
  refine ⟨rfl, ?_, rfl, ?_, ?_⟩
  · simp [cycleRun, List.map_map, Function.comp]
  · intro p hp
    obtain ⟨h, hh, hpe⟩ := List.mem_map.mp hp
    rw [← hpe]
  · exact (broadcastRun_noEnv pushOk reg reg hnd (fun g hg => hg)).1

/-- Witness for C5 at a concrete cycle: all feeds failing versus all feeds
returning non-success statuses, two clients, all pushes succeeding. -/
theorem fetch_failure_never_skips_broadcast_witness :
    (cycleRun FeedResp.netErr FeedResp.netErr FeedResp.netErr (fun _ => true)
        [] [3, 4] dataStoreInit).attempted
      = (cycleRun (FeedResp.resp 500 none) (FeedResp.resp 500 none) (FeedResp.resp 500 none)
          (fun _ => true) [] [3, 4] dataStoreInit).attempted
  ∧ (cycleRun FeedResp.netErr FeedResp.netErr FeedResp.netErr (fun _ => true)
        [] [3, 4] dataStoreInit).pushes.map Prod.fst
      = (cycleRun (FeedResp.resp 500 none) (FeedResp.resp 500 none) (FeedResp.resp 500 none)
          (fun _ => true) [] [3, 4] dataStoreInit).pushes.map Prod.fst
  ∧ (cycleRun FeedResp.netErr FeedResp.netErr FeedResp.netErr (fun _ => true)
        [] [3, 4] dataStoreInit).crashed
      = (cycleRun (FeedResp.resp 500 none) (FeedResp.resp 500 none) (FeedResp.resp 500 none)
          (fun _ => true) [] [3, 4] dataStoreInit).crashed
  ∧ (∀ p ∈ (cycleRun FeedResp.netErr FeedResp.netErr FeedResp.netErr (fun _ => true)
        [] [3, 4] dataStoreInit).pushes,
        p.2 = fetchPhase FeedResp.netErr FeedResp.netErr FeedResp.netErr dataStoreInit)
  ∧ (cycleRun FeedResp.netErr FeedResp.netErr FeedResp.netErr (fun _ => true)
        [] [3, 4] dataStoreInit).attempted = [3, 4] :=
  fetch_failure_never_skips_broadcast FeedResp.netErr FeedResp.netErr FeedResp.netErr
    (FeedResp.resp 500 none) (FeedResp.resp 500 none) (FeedResp.resp 500 none)
    (fun _ => true) [] [3, 4] dataStoreInit (by decide)

/-- C6.  Parsing/formatting correctness on the end-to-end example in the spec:
a seismic response with magnitudes 4.5 and 2.1 at places "10km N of X" and
"5km S of Y" yields the seismic section
["M4.5 - 10km N of X", "M2.1 - 5km S of Y"] (one string per feature, in
feed order); a weather response with temp_F=72 and description "Sunny"
yields the section with temp_F 72 and description "Sunny"; a currency
response with rate "64,523.10" yields the section with BTC_USD "64,523.10". -/
theorem parsing_formatting_end_to_end :
    fetchPhase (FeedResp.resp 200 (some quakeBody0))
      (FeedResp.resp 200 (some weatherBody0))
      (FeedResp.resp 200 (some cryptoBody0)) dataStoreInit
      = [("earthquakes", Json.arr
            [Json.str "M4.5 - 10km N of X", Json.str "M2.1 - 5km S of Y"]),
         ("weather", Json.obj
            [("temp_F", Json.num "72"), ("description", Json.str "Sunny")]),
         ("crypto", Json.obj [("BTC_USD", Json.str "64,523.10")])] := rfl

/-- C7.  Seismic replace-wholesale: whenever the seismic block runs on a 200
response and completes its assignment, the earthquakes section equals
exactly the value parsed from the new response — the same value for any two
previous stores, so nothing of the previous list survives and no merge
occurs — and the block leaves the weather and crypto sections untouched. -/
theorem seismic_replace_wholesale (j : Json) (s s' t t' : Store)
    (h : applyStep s "earthquakes" (eqStep (FeedResp.resp 200 (some j))) = .ok t)
    (h' : applyStep s' "earthquakes" (eqStep (FeedResp.resp 200 (some j))) = .ok t') :
    (∃ v, eqParse j = .ok v ∧ dictGet t "earthquakes" = some v
        ∧ dictGet t' "earthquakes" = some v)
  ∧ dictGet t "weather" = dictGet s "weather"
  ∧ dictGet t "crypto" = dictGet s "crypto" := by
  cases hp : eqParse j with
  | error e =>
    have hstep : eqStep (FeedResp.resp 200 (some j)) = FeedStep.raised e := by
      simp [eqStep, hp]
    rw [hstep] at h
    simp [applyStep] at h
  | ok v =>
    have hstep : eqStep (FeedResp.resp 200 (some j)) = FeedStep.value v := by
      simp [eqStep, hp]
    rw [hstep] at h h'
    simp only [applyStep, Except.ok.injEq] at h h'
    subst h
    subst h'
    refine ⟨⟨v, rfl, dictGet_dictSet_self _ _ _, dictGet_dictSet_self _ _ _⟩, ?_, ?_⟩
    · exact dictGet_dictSet_other _ _ _ _ (by decide)
    · exact dictGet_dictSet_other _ _ _ _ (by decide)

/-- Witness for C7: the same 200 seismic response applied over the initial
store and over a store holding a stale seismic list gives the same new
seismic section. -/
theorem seismic_replace_wholesale_witness :
    (∃ v, eqParse quakeBody0 = .ok v
        ∧ dictGet [("earthquakes", Json.arr
              [Json.str "M4.5 - 10km N of X", Json.str "M2.1 - 5km S of Y"]),
             ("weather", Json.obj []), ("crypto", Json.obj [])] "earthquakes" = some v
        ∧ dictGet [("earthquakes", Json.arr
              [Json.str "M4.5 - 10km N of X", Json.str "M2.1 - 5km S of Y"]),
             ("weather", Json.obj [("temp_F", Json.num "0")]),
             ("crypto", Json.obj [])] "earthquakes" = some v)
  ∧ dictGet [("earthquakes", Json.arr
        [Json.str "M4.5 - 10km N of X", Json.str "M2.1 - 5km S of Y"]),
       ("weather", Json.obj []), ("crypto", Json.obj [])] "weather"
      = dictGet dataStoreInit "weather"
  ∧ dictGet [("earthquakes", Json.arr
        [Json.str "M4.5 - 10km N of X", Json.str "M2.1 - 5km S of Y"]),
       ("weather", Json.obj []), ("crypto", Json.obj [])] "crypto"
      = dictGet dataStoreInit "crypto" :=
  seismic_replace_wholesale quakeBody0 dataStoreInit
    [("earthquakes", Json.arr [Json.str "stale quake"]),
     ("weather", Json.obj [("temp_F", Json.num "0")]), ("crypto", Json.obj [])]
    _ _ rfl rfl

/-- C8.  Membership-snapshot consistency: over any well-formed trace of
client connects/disconnects interleaved with broadcast cycles (cycles whose
pushes all succeed and which see no mid-broadcast mutation, so that the
interleaving is between whole phases), the point-in-time membership copy
`list(clients)` taken at the start of BROADCASTING contains a handle iff its
connect completed before the copy and its disconnect did not; the copy has
no duplicates; and the copy can be traversed to completion, without error,
under arbitrary concurrent registry mutation during the traversal. -/
theorem membership_snapshot_consistency (tr : List SysEvent)
    (hb : ∀ e ∈ tr, BenignEv e) (hwf : WFtrace tr) (h : Handle) :
    (h ∈ (sysRun tr).reg ↔ (SysEvent.connect h ∈ tr ∧ SysEvent.disconnect h ∉ tr))
  ∧ (sysRun tr).reg.Nodup
  ∧ (∀ sched : List (List EnvAct),
      (broadcastRun (fun _ => true) (sysRun tr).reg sched (sysRun tr).reg).attempted
        = (sysRun tr).reg
      ∧ (broadcastRun (fun _ => true) (sysRun tr).reg sched (sysRun tr).reg).crashed
        = false) := by
  have hreg : (sysRun tr).reg = List.foldl regStep [] tr := sysRun_reg_eq_foldl tr sysInit hb
  refine ⟨?_, ?_, ?_⟩
  · rw [hreg]
    rcases hwf h with hf | hf | hf
    · constructor
      · intro hmem
        exact absurd ((foldl_regStep_no_events h tr [] hf).mp hmem) (List.not_mem_nil h)
      · rintro ⟨hc, _⟩
        have hcf : SysEvent.connect h ∈ tr.filter (aboutHandle h) :=
          List.mem_filter.mpr ⟨hc, by simp [aboutHandle]⟩
        rw [hf] at hcf
        exact absurd hcf (List.not_mem_nil _)
    · constructor
      · intro _
        have hcf : SysEvent.connect h ∈ tr.filter (aboutHandle h) := by rw [hf]; simp
        refine ⟨(List.mem_filter.mp hcf).1, ?_⟩
        intro hd
        have hdf : SysEvent.disconnect h ∈ tr.filter (aboutHandle h) :=
          List.mem_filter.mpr ⟨hd, by simp [aboutHandle]⟩
        rw [hf] at hdf
        simp at hdf
      · intro _
        exact foldl_regStep_conn_only h tr [] hf
    · constructor
      · intro hmem
        exact absurd hmem (foldl_regStep_conn_disc h tr [] List.nodup_nil hf)
      · rintro ⟨_, hd⟩
        exfalso
        apply hd
        have hdf : SysEvent.disconnect h ∈ tr.filter (aboutHandle h) := by rw [hf]; simp
        exact (List.mem_filter.mp hdf).1
  · rw [hreg]
    exact foldl_regStep_nodup tr [] List.nodup_nil
  · intro sched
    have hall := broadcastRun_allOk (fun _ => true) (sysRun tr).reg sched (sysRun tr).reg
      (fun g _ => rfl)
    exact ⟨hall.1, hall.2.2⟩

/-- Witness for C8 on a concrete trace: client 1 connects, a benign
broadcast cycle runs, client 2 connects, client 1 disconnects; handle 2 is
then exactly the membership of the snapshot. -/
theorem membership_snapshot_consistency_witness :
    (2 ∈ (sysRun [SysEvent.connect 1,
        SysEvent.cycleEv FeedResp.netErr FeedResp.netErr FeedResp.netErr (fun _ => true) [],
        SysEvent.connect 2, SysEvent.disconnect 1]).reg
      ↔ (SysEvent.connect 2 ∈ [SysEvent.connect 1,
            SysEvent.cycleEv FeedResp.netErr FeedResp.netErr FeedResp.netErr (fun _ => true) [],
            SysEvent.connect 2, SysEvent.disconnect 1]
          ∧ SysEvent.disconnect 2 ∉ [SysEvent.connect 1,
              SysEvent.cycleEv FeedResp.netErr FeedResp.netErr FeedResp.netErr (fun _ => true) [],
              SysEvent.connect 2, SysEvent.disconnect 1]))
  ∧ (sysRun [SysEvent.connect 1,
        SysEvent.cycleEv FeedResp.netErr FeedResp.netErr FeedResp.netErr (fun _ => true) [],
        SysEvent.connect 2, SysEvent.disconnect 1]).reg.Nodup
  ∧ (∀ sched : List (List EnvAct),
      (broadcastRun (fun _ => true)
          (sysRun [SysEvent.connect 1,
            SysEvent.cycleEv FeedResp.netErr FeedResp.netErr FeedResp.netErr (fun _ => true) [],
            SysEvent.connect 2, SysEvent.disconnect 1]).reg sched
          (sysRun [SysEvent.connect 1,
            SysEvent.cycleEv FeedResp.netErr FeedResp.netErr FeedResp.netErr (fun _ => true) [],
            SysEvent.connect 2, SysEvent.disconnect 1]).reg).attempted
        = (sysRun [SysEvent.connect 1,
            SysEvent.cycleEv FeedResp.netErr FeedResp.netErr FeedResp.netErr (fun _ => true) [],
            SysEvent.connect 2, SysEvent.disconnect 1]).reg
      ∧ (broadcastRun (fun _ => true)
          (sysRun [SysEvent.connect 1,
            SysEvent.cycleEv FeedResp.netErr FeedResp.netErr FeedResp.netErr (fun _ => true) [],
            SysEvent.connect 2, SysEvent.disconnect 1]).reg sched
          (sysRun [SysEvent.connect 1,
            SysEvent.cycleEv FeedResp.netErr FeedResp.netErr FeedResp.netErr (fun _ => true) [],
            SysEvent.connect 2, SysEvent.disconnect 1]).reg).crashed = false) :=
  membership_snapshot_consistency
    [SysEvent.connect 1,
     SysEvent.cycleEv FeedResp.netErr FeedResp.netErr FeedResp.netErr (fun _ => true) [],
     SysEvent.connect 2, SysEvent.disconnect 1]
    (by
      intro e he
      fin_cases he
      · trivial
      · exact ⟨fun _ => rfl, rfl⟩
      · trivial
      · trivial)
    (by
      intro g
      by_cases h1 : g = 1
      · subst h1
        exact Or.inr (Or.inr rfl)
      · by_cases h2 : g = 2
        · subst h2
          exact Or.inr (Or.inl rfl)
        · left
          have d1 : decide ((1 : Nat) = g) = false := decide_eq_false (fun hh => h1 hh.symm)
          have d2 : decide ((2 : Nat) = g) = false := decide_eq_false (fun hh => h2 hh.symm)
          simp [aboutHandle, List.filter, d1, d2])
    2

/-- C9.  Client-input noninterference: for any client and any system trace,
deleting every inbound message of that client changes nothing observable —
the resulting snapshot store, the registry membership, the log of pushed
values and the liveness of the loop are all identical, because the result
of `receive_text` is discarded (line 101). -/
theorem client_input_noninterference (h : Handle) (tr : List SysEvent) :
    sysRun tr = sysRun (tr.filter (keepsNonMsg h)) :=
  foldl_sysStep_drop_msgs h tr sysInit

/-- C10.  Snapshot shape invariant: in every reachable state the shared
`data_store` has exactly the three sections `earthquakes`, `weather` and
`crypto`, in that order — `earthquakes` a list of strings, `weather` and
`crypto` dicts — and every cycle under every feed outcome preserves this
shape; no operation adds, deletes or renames a section. -/
theorem snapshot_shape_invariant (tr : List SysEvent) :
    StoreShape (sysRun tr).store := by
  have hgen : ∀ (l : List SysEvent) (st : Sys), StoreShape st.store →
      StoreShape (List.foldl sysStep st l).store := by
    intro l
    induction l with
    | nil => intro st hs; exact hs
    | cons e rest ih =>
      intro st hs
      refine ih (sysStep st e) ?_
      cases e with
      | cycleEv r1 r2 r3 pushOk sched =>
        by_cases hc : st.loopCrashed
        · simpa [sysStep, hc] using hs
        · simpa [sysStep, hc, cycleRun] using StoreShape_fetchPhase r1 r2 r3 st.store hs
      | connect g => exact hs
      | message g p => exact hs
      | disconnect g => exact hs
  exact hgen tr sysInit StoreShape_init
